import Mathlib

/-!
Shallow embedding of the `email_analysis` repository
(`config.py` and `vector_db_manager.py`) and proofs about the
`VectorDBManager` wrapper: add / search / info / clear / delete.

External collaborators (the ChromaDB persistent store, the
sentence-transformer embedding model, `uuid.uuid4`, and the filesystem)
are modelled explicitly: the embedding model as a function parameter,
`uuid4` as a stream of generated identifiers, exception-raising calls
as `Option String` error injections, and the store itself as an
in-memory collection of stored items.
-/

namespace EmailAnalysis

/-! ### config.py -/

def GROQ_MODEL : String := "llama3-8b-8192"

def VECTOR_DB_PATH : String := "./vector_db"

def COLLECTION_NAME : String := "email_collection"

def EMBEDDING_MODEL : String := "all-MiniLM-L6-v2"

def MAX_FILE_SIZE : Nat := 100 * 1024 * 1024

def SUPPORTED_FORMATS : List String := [".csv", ".json", ".txt", ".eml"]

def PAGE_TITLE : String := "Email Analysis System"

def PAGE_ICON : String := "📧"

/-- A configuration value as resolved at startup from `config.py`. -/
inductive ConfigVal where
  | str (s : String)
  | nat (n : Nat)
  | strList (l : List String)
  | noneVal
deriving DecidableEq, Repr

/-- The configuration mapping resolved before construction: every
module-level constant of `config.py` (the `GROQ_API_KEY` environment
lookup is modelled as absent). -/
def configEntries : List (String × ConfigVal) :=
  [ ("GROQ_API_KEY", ConfigVal.noneVal)
  , ("GROQ_MODEL", ConfigVal.str GROQ_MODEL)
  , ("VECTOR_DB_PATH", ConfigVal.str VECTOR_DB_PATH)
  , ("COLLECTION_NAME", ConfigVal.str COLLECTION_NAME)
  , ("EMBEDDING_MODEL", ConfigVal.str EMBEDDING_MODEL)
  , ("MAX_FILE_SIZE", ConfigVal.nat MAX_FILE_SIZE)
  , ("SUPPORTED_FORMATS", ConfigVal.strList SUPPORTED_FORMATS)
  , ("PAGE_TITLE", ConfigVal.str PAGE_TITLE)
  , ("PAGE_ICON", ConfigVal.str PAGE_ICON) ]

/-- The literal default of the `n_results` parameter in the source
signature `def search_emails(self, query: str, n_results: int = 10)`:
a constant written inside `vector_db_manager.py`, not a value of
`config.py`. -/
def searchDefaultNResults : Nat := 10

/-! ### Python values and email records -/

/-- A Python value as the wrapper observes it: `toStr` is `str(v)` and
`truthy` is `bool(v)`.  The wrapper only ever stringifies values and
tests their truthiness, so this pair is the whole observable behavior. -/
structure PyObj where
  toStr : String
  truthy : Bool
deriving DecidableEq, Repr

/-- A Python string as a `PyObj`: `str(s) = s`, truthy iff nonempty. -/
def PyObj.ofString (s : String) : PyObj :=
  ⟨s, !(s == "")⟩

/-- An email record: a Python dict, field name to value, in insertion
order (keys unique in any actual dict; lookups take the first match). -/
abbrev EmailRecord := List (String × PyObj)

/-- The distinguished text field name used by `add_emails`. -/
def textKey : String := "text_content"

/-- `d.get(k, dflt)` on a Python dict. -/
def dictGet (d : EmailRecord) (k : String) (dflt : PyObj) : PyObj :=
  match d.find? (fun kv => kv.1 == k) with
  | some kv => kv.2
  | none => dflt

/-- `email_data.get('text_content', '')` from `add_emails`. -/
def textContentOf (e : EmailRecord) : PyObj :=
  dictGet e textKey (PyObj.ofString "")

/-- The retention test of the `add_emails` loop: the record is kept
unless `not text_content` (text absent, hence the falsy default `''`,
or a falsy value such as the empty string). -/
def hasText (e : EmailRecord) : Bool :=
  (textContentOf e).truthy

/-- `{k: str(v) for k, v in email_data.items() if k != 'text_content'}`. -/
def metaOf (e : EmailRecord) : List (String × String) :=
  (e.filter (fun kv => !(kv.1 == textKey))).map (fun kv => (kv.1, kv.2.toStr))

/-- The records of the input that survive the text filter, in order. -/
def retained (emails : List EmailRecord) : List EmailRecord :=
  emails.filter hasText

/-- The accumulation loop of `add_emails`: walking the input records,
skipping those whose text is falsy, and otherwise appending the text to
`documents`, the stringified non-text fields to `metadatas`, and the
next freshly drawn `uuid4` value to `ids`.  `n` counts the generator
draws made so far. -/
def buildLists (uuid : Nat → String) :
    Nat → List EmailRecord →
    List PyObj × List (List (String × String)) × List String
  | _, [] => ([], [], [])
  | n, e :: rest =>
    let t := textContentOf e
    if t.truthy then
      let r := buildLists uuid (n + 1) rest
      (t :: r.1, metaOf e :: r.2.1, uuid n :: r.2.2)
    else
      buildLists uuid n rest

/-! ### The store model -/

/-- One item owned by the persistent collection: identifier, embedding
vector, original document, stringified metadata. -/
structure StoredItem (Emb : Type) where
  id : String
  embedding : Emb
  document : PyObj
  metadata : List (String × String)
deriving DecidableEq, Repr

/-- The named persistent collection of the store. -/
structure Collection (Emb : Type) where
  name : String
  meta : List (String × String)
  items : List (StoredItem Emb)
deriving DecidableEq, Repr

/-- The `metadata={"description": "Email data collection"}` argument of
`create_collection`. -/
def descriptionMeta : List (String × String) :=
  [("description", "Email data collection")]

/-- A freshly created, empty collection. -/
def emptyCollection (Emb : Type) (name : String) : Collection Emb :=
  ⟨name, descriptionMeta, []⟩

/-- The manager state: the `self` fields of `VectorDBManager`.
`client` records whether `self.client` is set (non-`None`). -/
structure VectorDBManager (Emb : Type) where
  db_path : String
  collection_name : String
  embedding_model : String
  client : Bool
  collection : Option (Collection Emb)
deriving DecidableEq, Repr

/-- Externally observable calls the wrapper makes, in order. -/
inductive Effect where
  | encodeCall
  | collectionAdd
  | clientReset
  | rmtreeCall
  | makedirsCall
  | createClient
  | getCollectionCall
  | createCollectionCall
deriving DecidableEq, Repr

/-- External collaborators of `add_emails`: the embedding model `enc`
(applied positionally to each document of the batch `encode` call), the
`uuid4` draw stream, and error injections for the two calls that can
raise (`encode` and `collection.add`). -/
structure AddEnv (Emb : Type) where
  enc : PyObj → Emb
  uuid : Nat → String
  encodeErr : Option String
  addErr : Option String

/-- Zipping the four aligned lists handed to `collection.add` into
stored items. -/
def mkItems {Emb : Type} :
    List String → List Emb → List PyObj → List (List (String × String)) →
    List (StoredItem Emb)
  | i :: is, e :: es, d :: ds, m :: ms => ⟨i, e, d, m⟩ :: mkItems is es ds ms
  | _, _, _, _ => []

/-- `add_emails` from `vector_db_manager.py`.  Returns the boolean
result, the manager state after the call, and the trace of external
calls made (embedding, insertion). -/
def add_emails {Emb : Type} (m : VectorDBManager Emb) (env : AddEnv Emb)
    (emails : List EmailRecord) :
    Bool × VectorDBManager Emb × List Effect :=
  if emails.isEmpty then
    (false, m, [])
  else
    let built := buildLists env.uuid 0 emails
    let documents := built.1
    let metadatas := built.2.1
    let ids := built.2.2
    if documents.isEmpty then
      (false, m, [])
    else
      match env.encodeErr with
      | some _ => (false, m, [Effect.encodeCall])
      | none =>
        let embeddings := documents.map env.enc
        match m.collection with
        | none => (false, m, [Effect.encodeCall])
        | some c =>
          match env.addErr with
          | some _ => (false, m, [Effect.encodeCall, Effect.collectionAdd])
          | none =>
            let c2 : Collection Emb :=
              { c with items := c.items ++ mkItems ids embeddings documents metadatas }
            (true, { m with collection := some c2 },
              [Effect.encodeCall, Effect.collectionAdd])

/-! ### search_emails -/

/-- External collaborators of `search_emails`: the embedding model on
the query, the store's distance metric, and error injections for the
two calls that can raise (query embedding and `collection.query`). -/
structure SearchEnv (Emb : Type) where
  encQ : String → Emb
  dist : Emb → Emb → Int
  encodeErr : Option String
  queryErr : Option String

/-- The store's answer to a nearest-neighbor query, as the wrapper
reads it: per-query lists of documents, metadatas, distances (one
query, so one inner list each). -/
structure QueryResults (Emb : Type) where
  documents : List (List PyObj)
  metadatas : List (List (List (String × String)))
  distances : List (List Int)
deriving Repr

/-- Modelled external collaborator (the persistent vector store is not
part of this repository): per the spec, `query(embedding, k)` returns
the `k` stored items nearest to the query embedding by the store's
distance metric, in store-native ascending-distance order, as aligned
documents/metadatas/distances lists. -/
def Collection.query {Emb : Type} (c : Collection Emb)
    (dist : Emb → Emb → Int) (qe : Emb) (k : Nat) : QueryResults Emb :=
  let top :=
    (List.insertionSort
      (fun a b => dist qe a.embedding ≤ dist qe b.embedding) c.items).take k
  ⟨[top.map (fun it => it.document)],
   [top.map (fun it => it.metadata)],
   [top.map (fun it => dist qe it.embedding)]⟩

/-- One formatted search result: `{'document': ..., 'metadata': ...,
'distance': ...}`. -/
structure SearchResult (Emb : Type) where
  document : PyObj
  metadata : List (String × String)
  distance : Int
deriving DecidableEq, Repr

/-- Positional three-way zip (the formatting loop indexes the three
per-query lists with the same `i`). -/
def zipWith3 {α β γ δ : Type} (f : α → β → γ → δ) :
    List α → List β → List γ → List δ
  | a :: as, b :: bs, c :: cs => f a b c :: zipWith3 f as bs cs
  | _, _, _ => []

/-- The result-formatting tail of `search_emails`: guarded by
`if results['documents'] and results['documents'][0]`, then one record
per index of the first documents list.  A missing inner list would make
the Python indexing raise (caught to `[]`), hence the empty result on
the unmatched shapes. -/
def formatResults {Emb : Type} (r : QueryResults Emb) :
    List (SearchResult Emb) :=
  match r.documents, r.metadatas, r.distances with
  | d0 :: _, m0 :: _, dist0 :: _ =>
    if d0.isEmpty then []
    else zipWith3 (fun d mt di => ⟨d, mt, di⟩) d0 m0 dist0
  | _, _, _ => []

/-- `search_emails` from `vector_db_manager.py`: empty on an unset
collection, empty when embedding or query raises, otherwise the
formatted store answer. -/
def search_emails {Emb : Type} (m : VectorDBManager Emb)
    (env : SearchEnv Emb) (query : String) (n_results : Nat) :
    List (SearchResult Emb) :=
  match m.collection with
  | none => []
  | some c =>
    match env.encodeErr with
    | some _ => []
    | none =>
      let qe := env.encQ query
      match env.queryErr with
      | some _ => []
      | none => formatResults (c.query env.dist qe n_results)

/-- `search_emails` called without an explicit `n_results`, taking the
signature default `10`. -/
def search_emails_default {Emb : Type} (m : VectorDBManager Emb)
    (env : SearchEnv Emb) (query : String) : List (SearchResult Emb) :=
  search_emails m env query searchDefaultNResults

/-! ### get_collection_info -/

/-- A value of the info mapping: the name and path are strings, the
count a number. -/
inductive InfoVal where
  | str (s : String)
  | nat (n : Nat)
deriving DecidableEq, Repr

/-- `get_collection_info` from `vector_db_manager.py`; `countErr`
injects a failure of `self.collection.count()`. -/
def get_collection_info {Emb : Type} (m : VectorDBManager Emb)
    (countErr : Option String) : List (String × InfoVal) :=
  match m.collection with
  | none => []
  | some c =>
    match countErr with
    | some _ => []
    | none =>
      [ ("name", InfoVal.str m.collection_name)
      , ("count", InfoVal.nat c.items.length)
      , ("path", InfoVal.str m.db_path) ]

/-! ### clear_collection -/

/-- Error injections for the two client calls of `clear_collection`. -/
structure ClearEnv where
  deleteErr : Option String
  createErr : Option String

/-- `clear_collection` from `vector_db_manager.py`.  The result is an
`Option Bool` because the Python function can fall off the end: when
`self.collection` is falsy the `if` body (whose last statement is
`return True`) is skipped, no `return` executes, and the call returns
Python `None` — modelled as `none`.  `some b` models `return b`. -/
def clear_collection {Emb : Type} (m : VectorDBManager Emb)
    (env : ClearEnv) : Option Bool × VectorDBManager Emb :=
  match m.collection with
  | none => (none, m)
  | some _ =>
    match env.deleteErr with
    | some _ => (some false, m)
    | none =>
      match env.createErr with
      | some _ => (some false, m)
      | none =>
        (some true,
          { m with collection := some (emptyCollection Emb m.collection_name) })

/-! ### _initialize_db and delete_database -/

/-- Error injections for the external calls of `_initialize_db`. -/
structure InitEnv where
  makedirsErr : Option String
  clientErr : Option String
  createErr : Option String

/-- The world outside the manager object: whether the storage directory
exists, and the collection the persistent client would find by name. -/
structure World (Emb : Type) where
  dirExists : Bool
  stored : Option (Collection Emb)
deriving DecidableEq, Repr

/-- The message `_initialize_db` wraps around an underlying error. -/
def initFailMsg (e : String) : String :=
  "Failed to initialize vector database: " ++ e

/-- `_initialize_db` from `vector_db_manager.py`: makedirs, client
construction, then get-or-create of the named collection.  Returns
`some msg` when it raises (wrapped message), with the mutations made up
to the failure point, plus the trace of external calls. -/
def initDb {Emb : Type} (env : InitEnv) (m : VectorDBManager Emb)
    (w : World Emb) :
    Option String × VectorDBManager Emb × World Emb × List Effect :=
  match env.makedirsErr with
  | some e => (some (initFailMsg e), m, w, [Effect.makedirsCall])
  | none =>
    let w1 := { w with dirExists := true }
    match env.clientErr with
    | some e =>
      (some (initFailMsg e), m, w1,
        [Effect.makedirsCall, Effect.createClient])
    | none =>
      let m1 := { m with client := true }
      match w1.stored with
      | some c =>
        (none, { m1 with collection := some c }, w1,
          [Effect.makedirsCall, Effect.createClient, Effect.getCollectionCall])
      | none =>
        match env.createErr with
        | some e =>
          (some (initFailMsg e), m1, w1,
            [Effect.makedirsCall, Effect.createClient,
             Effect.getCollectionCall, Effect.createCollectionCall])
        | none =>
          let c := emptyCollection Emb m.collection_name
          (none, { m1 with collection := some c },
            { w1 with stored := some c },
            [Effect.makedirsCall, Effect.createClient,
             Effect.getCollectionCall, Effect.createCollectionCall])

/-- The `self` fields as `__init__` sets them from configuration before
`_initialize_db` runs. -/
def mkManagerFields (Emb : Type) : VectorDBManager Emb :=
  ⟨VECTOR_DB_PATH, COLLECTION_NAME, EMBEDDING_MODEL, false, none⟩

/-- Error injections for `delete_database`: the client reset, the
directory removal, and the re-initialization. -/
structure DeleteEnv where
  resetErr : Option String
  rmtreeErr : Option String
  reinit : InitEnv

/-- The final `self._initialize_db()` step of `delete_database`: a
raised initialization error is caught by the outer `try` and turned
into `False`. -/
def deleteInitStep {Emb : Type} (env : DeleteEnv) (m : VectorDBManager Emb)
    (w : World Emb) (tr : List Effect) :
    Bool × VectorDBManager Emb × World Emb × List Effect :=
  match initDb env.reinit m w with
  | (some _, m2, w2, tr2) => (false, m2, w2, tr ++ tr2)
  | (none, m2, w2, tr2) => (true, m2, w2, tr ++ tr2)

/-- The `shutil.rmtree` step of `delete_database`, guarded by
`os.path.exists(self.db_path)`; removal deletes the on-disk store. -/
def deleteRmtreeStep {Emb : Type} (env : DeleteEnv) (m : VectorDBManager Emb)
    (w : World Emb) (tr : List Effect) :
    Bool × VectorDBManager Emb × World Emb × List Effect :=
  if w.dirExists then
    match env.rmtreeErr with
    | some _ => (false, m, w, tr ++ [Effect.rmtreeCall])
    | none =>
      deleteInitStep env m ⟨false, none⟩ (tr ++ [Effect.rmtreeCall])
  else deleteInitStep env m w tr

/-- `delete_database` from `vector_db_manager.py`: reset the client if
set (a reset wipes the store's collections), remove the storage
directory if present, then re-initialize; `True` on success, `False`
when any step raises. -/
def delete_database {Emb : Type} (env : DeleteEnv) (m : VectorDBManager Emb)
    (w : World Emb) :
    Bool × VectorDBManager Emb × World Emb × List Effect :=
  if m.client then
    match env.resetErr with
    | some _ => (false, m, w, [Effect.clientReset])
    | none =>
      deleteRmtreeStep env m { w with stored := none } [Effect.clientReset]
  else deleteRmtreeStep env m w []

/-! ### Characterizing the add loop -/

/-- `k` successive draws of the id generator starting at draw `n`. -/
def idsFrom (uuid : Nat → String) : Nat → Nat → List String
  | _, 0 => []
  | n, k + 1 => uuid n :: idsFrom uuid (n + 1) k

/-- The stored items `add_emails` builds for a list of retained
records, the first taking draw `n` of the id generator. -/
def stampItems {Emb : Type} (uuid : Nat → String) (enc : PyObj → Emb) :
    Nat → List EmailRecord → List (StoredItem Emb)
  | _, [] => []
  | n, r :: rs =>
    ⟨uuid n, enc (textContentOf r), textContentOf r, metaOf r⟩ ::
      stampItems uuid enc (n + 1) rs

theorem retained_cons_pos (e : EmailRecord) (rest : List EmailRecord)
    (h : hasText e = true) : retained (e :: rest) = e :: retained rest := by
  simp [retained, List.filter_cons, h]

theorem retained_cons_neg (e : EmailRecord) (rest : List EmailRecord)
    (h : hasText e = false) : retained (e :: rest) = retained rest := by
  simp [retained, List.filter_cons, h]

/-- The loop of `add_emails` in closed form: the documents are the
texts of the retained records, the metadatas their stringified non-text
fields, the ids successive generator draws, all positionally aligned
with the retained records. -/
theorem buildLists_eq (uuid : Nat → String) (emails : List EmailRecord) :
    ∀ n, buildLists uuid n emails =
      ((retained emails).map textContentOf,
       (retained emails).map metaOf,
       idsFrom uuid n (retained emails).length) := by
  induction emails with
  | nil => intro n; rfl
  | cons e rest ih =>
    intro n
    by_cases h : (textContentOf e).truthy
    · rw [retained_cons_pos e rest h]
      simp [buildLists, h, ih (n + 1), idsFrom]
    · rw [retained_cons_neg e rest (by simpa [hasText] using h)]
      simp [buildLists, h, ih n]

theorem mem_idsFrom (uuid : Nat → String) :
    ∀ (k n : Nat) (s : String),
      s ∈ idsFrom uuid n k ↔ ∃ i, i < k ∧ s = uuid (n + i) := by
  intro k
  induction k with
  | zero => intro n s; simp [idsFrom]
  | succ k ih =>
    intro n s
    simp only [idsFrom, List.mem_cons, ih (n + 1)]
    constructor
    · rintro (rfl | ⟨i, hi, rfl⟩)
      · exact ⟨0, by omega, by simp⟩
      · exact ⟨i + 1, by omega, by ring_nf⟩
    · rintro ⟨i, hi, rfl⟩
      match i with
      | 0 => exact Or.inl (by simp)
      | j + 1 => exact Or.inr ⟨j, by omega, by ring_nf⟩

theorem idsFrom_nodup (uuid : Nat → String)
    (hinj : ∀ i j, uuid i = uuid j → i = j) :
    ∀ (k n : Nat), (idsFrom uuid n k).Nodup := by
  intro k
  induction k with
  | zero => intro n; simp [idsFrom]
  | succ k ih =>
    intro n
    refine List.nodup_cons.mpr ⟨?_, ih (n + 1)⟩
    intro hmem
    obtain ⟨i, _, heq⟩ := (mem_idsFrom uuid k (n + 1) (uuid n)).mp hmem
    have := hinj n (n + 1 + i) heq
    omega

theorem idsFrom_getElem? (uuid : Nat → String) :
    ∀ (k n i : Nat),
      (idsFrom uuid n k)[i]? =
        if i < k then some (uuid (n + i)) else none := by
  intro k
  induction k with
  | zero => intro n i; simp [idsFrom]
  | succ k ih =>
    intro n i
    match i with
    | 0 => simp [idsFrom]
    | j + 1 =>
      simp only [idsFrom, List.getElem?_cons_succ, ih (n + 1) j]
      by_cases hj : j < k
      · simp [hj, Nat.lt_succ_of_lt, show n + 1 + j = n + (j + 1) by omega,
          show j + 1 < k + 1 by omega]
      · simp [hj, show ¬(j + 1 < k + 1) by omega]

theorem stampItems_getElem? {Emb : Type} (uuid : Nat → String)
    (enc : PyObj → Emb) :
    ∀ (R : List EmailRecord) (n i : Nat),
      (stampItems uuid enc n R)[i]? =
        R[i]?.map (fun r =>
          (⟨uuid (n + i), enc (textContentOf r), textContentOf r, metaOf r⟩ :
            StoredItem Emb)) := by
  intro R
  induction R with
  | nil => intro n i; simp [stampItems]
  | cons r rs ih =>
    intro n i
    match i with
    | 0 => simp [stampItems]
    | j + 1 =>
      simp [stampItems, List.getElem?_cons_succ, ih (n + 1) j,
        show n + 1 + j = n + (j + 1) by omega]

/-- The four aligned lists the add path hands to `collection.add`,
zipped, are exactly the stamped items of the retained records. -/
theorem mkItems_stamp {Emb : Type} (uuid : Nat → String) (enc : PyObj → Emb) :
    ∀ (R : List EmailRecord) (n : Nat),
      mkItems (idsFrom uuid n R.length) ((R.map textContentOf).map enc)
        (R.map textContentOf) (R.map metaOf) = stampItems uuid enc n R := by
  intro R
  induction R with
  | nil => intro n; rfl
  | cons r rs ih =>
    intro n
    have h := ih (n + 1)
    simp only [List.map_map] at h
    simp [mkItems, idsFrom, stampItems, h]

/-- The success path of `add_emails` in closed form. -/
theorem add_emails_success {Emb : Type} (m : VectorDBManager Emb)
    (env : AddEnv Emb) (emails : List EmailRecord) (c : Collection Emb)
    (hc : m.collection = some c) (he : env.encodeErr = none)
    (ha : env.addErr = none) (hne : retained emails ≠ []) :
    add_emails m env emails =
      (true,
        { m with
            collection := some { c with
              items := c.items ++
                stampItems env.uuid env.enc 0 (retained emails) } },
        [Effect.encodeCall, Effect.collectionAdd]) := by
  have hemails : emails ≠ [] := by
    intro h
    exact hne (by simp [h, retained])
  unfold add_emails
  rw [buildLists_eq env.uuid emails 0]
  have h := mkItems_stamp env.uuid env.enc (retained emails) 0
  simp only [List.map_map] at h
  simp [hemails, hne, hc, he, ha, h]

theorem idsFrom_length (uuid : Nat → String) :
    ∀ (k n : Nat), (idsFrom uuid n k).length = k := by
  intro k
  induction k with
  | zero => intro n; rfl
  | succ k ih => intro n; simp [idsFrom, ih (n + 1)]

/-! ### Concrete instances used by the witnesses -/

/-- A concrete id-generator stream with provably distinct draws. -/
def uuidStream (n : Nat) : String :=
  String.mk (List.replicate n 'a')

theorem uuidStream_injective : ∀ i j, uuidStream i = uuidStream j → i = j := by
  intro i j h
  have := congrArg String.length h
  simpa [uuidStream, String.length] using this

/-- A concrete add environment over the trivial embedding type. -/
def unitAddEnv : AddEnv Unit :=
  ⟨fun _ => (), uuidStream, none, none⟩

/-- A concrete initialized manager over the trivial embedding type. -/
def sampleManager : VectorDBManager Unit :=
  ⟨VECTOR_DB_PATH, COLLECTION_NAME, EMBEDDING_MODEL, true,
    some (emptyCollection Unit COLLECTION_NAME)⟩

/-- A record with a nonempty text field and one metadata field. -/
def recWithText : EmailRecord :=
  [(textKey, PyObj.ofString ("hello world")),
   ("subject", PyObj.ofString ("test"))]

/-- A record with no text field at all. -/
def recNoText : EmailRecord :=
  [("subject", PyObj.ofString ("no body"))]

/-- A record whose text field is the empty string. -/
def recEmptyText : EmailRecord :=
  [(textKey, PyObj.ofString (""))]

/-! ### Claim C1 -/

/-- C1: a record whose text field is absent or empty is never embedded
and never stored — wherever it sits in the input, the lists built by
the add loop and the entire result of `add_emails` (success flag,
manager state, external calls) are the same as if the record were not
in the input at all. -/
theorem add_never_stores_textless_record {Emb : Type}
    (m : VectorDBManager Emb) (env : AddEnv Emb)
    (pre post : List EmailRecord) (bad : EmailRecord)
    (hbad : bad.find? (fun kv => kv.1 == textKey) = none ∨
      ∃ v, bad.find? (fun kv => kv.1 == textKey) = some v ∧
        v.2 = PyObj.ofString "") :
    (∀ n, buildLists env.uuid n (pre ++ bad :: post) =
        buildLists env.uuid n (pre ++ post)) ∧
    add_emails m env (pre ++ bad :: post) = add_emails m env (pre ++ post) := by
  have hb : hasText bad = false := by
    rcases hbad with habs | ⟨v, hv, hve⟩
    · simp [hasText, textContentOf, dictGet, habs, PyObj.ofString]
    · simp [hasText, textContentOf, dictGet, hv, hve, PyObj.ofString]
  have hret : retained (pre ++ bad :: post) = retained (pre ++ post) := by
    simp [retained, List.filter_append, List.filter_cons, hb]
  have hbuild : ∀ n, buildLists env.uuid n (pre ++ bad :: post) =
      buildLists env.uuid n (pre ++ post) := by
    intro n
    rw [buildLists_eq, buildLists_eq, hret]
  refine ⟨hbuild, ?_⟩
  by_cases hpp : pre ++ post = []
  · obtain ⟨hpre, hpost⟩ := List.append_eq_nil.mp hpp
    subst hpre
    subst hpost
    have hsing : retained [bad] = [] := by
      simp [retained, List.filter_cons, hb]
    unfold add_emails
    rw [buildLists_eq]
    simp [hsing]
  · have h1 : (pre ++ bad :: post).isEmpty = false := by simp
    have h2 : (pre ++ post).isEmpty = false := by simp [hpp]
    unfold add_emails
    rw [hbuild 0]
    simp [h1, h2]

/-- Witness for C1: a record carrying only a subject is skipped — the
add result on `[recNoText, recWithText]` equals the one on
`[recWithText]`. -/
theorem add_never_stores_textless_record_witness :
    (recNoText.find? (fun kv => kv.1 == textKey) = none ∨
      ∃ v, recNoText.find? (fun kv => kv.1 == textKey) = some v ∧
        v.2 = PyObj.ofString "") ∧
    ((∀ n, buildLists unitAddEnv.uuid n ([] ++ recNoText :: [recWithText]) =
        buildLists unitAddEnv.uuid n ([] ++ [recWithText])) ∧
      add_emails sampleManager unitAddEnv ([] ++ recNoText :: [recWithText]) =
        add_emails sampleManager unitAddEnv ([] ++ [recWithText])) :=
  ⟨Or.inl rfl,
    add_never_stores_textless_record sampleManager unitAddEnv
      [] [recWithText] recNoText (Or.inl rfl)⟩

/-! ### Claim C2 -/

/-- C2: when the filtering loop leaves zero documents (in particular on
an empty input, or when every record lacks text content), `add_emails`
returns `false`, leaves the manager — hence the collection and its item
count — unchanged, and makes no external call: no embedding, no
insertion. -/
theorem add_no_documents_returns_false {Emb : Type}
    (m : VectorDBManager Emb) (env : AddEnv Emb) (emails : List EmailRecord)
    (h : (buildLists env.uuid 0 emails).1 = []) :
    add_emails m env emails = (false, m, []) := by
  have hret : retained emails = [] := by
    rw [buildLists_eq env.uuid emails 0] at h
    exact List.map_eq_nil_iff.mp h
  cases emails with
  | nil => rfl
  | cons e rest =>
    unfold add_emails
    rw [buildLists_eq]
    simp [hret]

/-- Witness for C2: an input whose records all lack text content yields
zero documents, and add returns `false` with the manager untouched and
no external call. -/
theorem add_no_documents_returns_false_witness :
    (buildLists unitAddEnv.uuid 0 [recNoText, recEmptyText]).1 = [] ∧
    add_emails sampleManager unitAddEnv [recNoText, recEmptyText] =
      (false, sampleManager, []) :=
  ⟨rfl,
    add_no_documents_returns_false sampleManager unitAddEnv
      [recNoText, recEmptyText] rfl⟩

/-! ### Claim C8 -/

/-- C8: on a successful add, the stored item built for the `i`-th
retained record has identifier `env.uuid i` (the `i`-th fresh draw of
the generator — pairwise distinct since the generator never repeats),
embedding `env.enc` of the record's text field, and metadata exactly
the record's non-text fields with values stringified (`metaOf`). -/
theorem add_stored_item_fields {Emb : Type} (m : VectorDBManager Emb)
    (env : AddEnv Emb) (emails : List EmailRecord) (c : Collection Emb)
    (hc : m.collection = some c) (he : env.encodeErr = none)
    (ha : env.addErr = none) (hne : retained emails ≠ [])
    (hinj : ∀ i j, env.uuid i = env.uuid j → i = j) :
    add_emails m env emails =
      (true,
        { m with
            collection := some { c with
              items := c.items ++
                stampItems env.uuid env.enc 0 (retained emails) } },
        [Effect.encodeCall, Effect.collectionAdd]) ∧
    (∀ i, (stampItems env.uuid env.enc 0 (retained emails))[i]? =
      (retained emails)[i]?.map (fun r =>
        (⟨env.uuid i, env.enc (textContentOf r), textContentOf r, metaOf r⟩ :
          StoredItem Emb))) ∧
    ((buildLists env.uuid 0 emails).2.2).Nodup := by
  refine ⟨add_emails_success m env emails c hc he ha hne, ?_, ?_⟩
  · intro i
    simpa using stampItems_getElem? env.uuid env.enc (retained emails) 0 i
  · rw [buildLists_eq]
    exact idsFrom_nodup env.uuid hinj _ _

/-- Witness for C8 at a one-record input over the trivial embedding
type. -/
theorem add_stored_item_fields_witness :
    sampleManager.collection = some (emptyCollection Unit COLLECTION_NAME) ∧
    unitAddEnv.encodeErr = none ∧
    unitAddEnv.addErr = none ∧
    retained [recWithText] ≠ [] ∧
    (add_emails sampleManager unitAddEnv [recWithText] =
      (true,
        { sampleManager with
            collection := some { emptyCollection Unit COLLECTION_NAME with
              items := (emptyCollection Unit COLLECTION_NAME).items ++
                stampItems unitAddEnv.uuid unitAddEnv.enc 0
                  (retained [recWithText]) } },
        [Effect.encodeCall, Effect.collectionAdd]) ∧
    (∀ i, (stampItems unitAddEnv.uuid unitAddEnv.enc 0
        (retained [recWithText]))[i]? =
      (retained [recWithText])[i]?.map (fun r =>
        (⟨unitAddEnv.uuid i, unitAddEnv.enc (textContentOf r),
          textContentOf r, metaOf r⟩ : StoredItem Unit))) ∧
    ((buildLists unitAddEnv.uuid 0 [recWithText]).2.2).Nodup) :=
  ⟨rfl, rfl, rfl, by decide,
    add_stored_item_fields sampleManager unitAddEnv [recWithText]
      (emptyCollection Unit COLLECTION_NAME) rfl rfl rfl (by decide)
      uuidStream_injective⟩

/-! ### Claim C10 -/

/-- C10: in every successful add, the documents, metadatas and ids
lists handed to `collection.add` have equal length and correspond
positionally — for each index `i` all three come from the same retained
record — and the inserted items are exactly these lists zipped. -/
theorem add_lists_aligned {Emb : Type} (m : VectorDBManager Emb)
    (env : AddEnv Emb) (emails : List EmailRecord) (c : Collection Emb)
    (hc : m.collection = some c) (he : env.encodeErr = none)
    (ha : env.addErr = none) (hne : retained emails ≠ []) :
    (add_emails m env emails).1 = true ∧
    (buildLists env.uuid 0 emails).1.length =
      (buildLists env.uuid 0 emails).2.1.length ∧
    (buildLists env.uuid 0 emails).1.length =
      (buildLists env.uuid 0 emails).2.2.length ∧
    (∀ i,
      (buildLists env.uuid 0 emails).1[i]? =
        (retained emails)[i]?.map textContentOf ∧
      (buildLists env.uuid 0 emails).2.1[i]? =
        (retained emails)[i]?.map metaOf ∧
      (buildLists env.uuid 0 emails).2.2[i]? =
        (retained emails)[i]?.map (fun _ => env.uuid i)) ∧
    (add_emails m env emails).2.1.collection =
      some { c with
        items := c.items ++
          mkItems (buildLists env.uuid 0 emails).2.2
            ((buildLists env.uuid 0 emails).1.map env.enc)
            (buildLists env.uuid 0 emails).1
            (buildLists env.uuid 0 emails).2.1 } := by
  have hs := add_emails_success m env emails c hc he ha hne
  refine ⟨by rw [hs], ?_, ?_, ?_, ?_⟩
  · rw [buildLists_eq]
    simp
  · rw [buildLists_eq]
    simp [idsFrom_length]
  · intro i
    rw [buildLists_eq]
    refine ⟨by simp, by simp, ?_⟩
    rw [idsFrom_getElem? env.uuid (retained emails).length 0 i]
    by_cases hi : i < (retained emails).length
    · simp [hi, List.getElem?_eq_getElem hi]
    · have hle : (retained emails).length ≤ i := by omega
      simp [hi, List.getElem?_eq_none hle]
  · rw [hs, buildLists_eq]
    have h := mkItems_stamp env.uuid env.enc (retained emails) 0
    simp only [List.map_map] at h ⊢
    simp [h]

/-- Witness for C10 at a two-record input (one retained, one skipped)
over the trivial embedding type. -/
theorem add_lists_aligned_witness :
    sampleManager.collection = some (emptyCollection Unit COLLECTION_NAME) ∧
    unitAddEnv.encodeErr = none ∧
    unitAddEnv.addErr = none ∧
    retained [recWithText, recNoText] ≠ [] ∧
    ((add_emails sampleManager unitAddEnv [recWithText, recNoText]).1 = true ∧
    (buildLists unitAddEnv.uuid 0 [recWithText, recNoText]).1.length =
      (buildLists unitAddEnv.uuid 0 [recWithText, recNoText]).2.1.length ∧
    (buildLists unitAddEnv.uuid 0 [recWithText, recNoText]).1.length =
      (buildLists unitAddEnv.uuid 0 [recWithText, recNoText]).2.2.length ∧
    (∀ i,
      (buildLists unitAddEnv.uuid 0 [recWithText, recNoText]).1[i]? =
        (retained [recWithText, recNoText])[i]?.map textContentOf ∧
      (buildLists unitAddEnv.uuid 0 [recWithText, recNoText]).2.1[i]? =
        (retained [recWithText, recNoText])[i]?.map metaOf ∧
      (buildLists unitAddEnv.uuid 0 [recWithText, recNoText]).2.2[i]? =
        (retained [recWithText, recNoText])[i]?.map
          (fun _ => unitAddEnv.uuid i)) ∧
    (add_emails sampleManager unitAddEnv [recWithText, recNoText]).2.1.collection =
      some { emptyCollection Unit COLLECTION_NAME with
        items := (emptyCollection Unit COLLECTION_NAME).items ++
          mkItems (buildLists unitAddEnv.uuid 0 [recWithText, recNoText]).2.2
            ((buildLists unitAddEnv.uuid 0 [recWithText, recNoText]).1.map
              unitAddEnv.enc)
            (buildLists unitAddEnv.uuid 0 [recWithText, recNoText]).1
            (buildLists unitAddEnv.uuid 0 [recWithText, recNoText]).2.1 }) :=
  ⟨rfl, rfl, rfl, by decide,
    add_lists_aligned sampleManager unitAddEnv [recWithText, recNoText]
      (emptyCollection Unit COLLECTION_NAME) rfl rfl rfl (by decide)⟩

/-! ### Search lemmas -/

theorem zipWith3_map_same {α β γ δ ε : Type} (f : β → γ → δ → ε)
    (g1 : α → β) (g2 : α → γ) (g3 : α → δ) (l : List α) :
    zipWith3 f (l.map g1) (l.map g2) (l.map g3) =
      l.map (fun x => f (g1 x) (g2 x) (g3 x)) := by
  induction l with
  | nil => rfl
  | cons a as ih => simp [zipWith3, ih]

/-- Formatting the store's answer yields one result per returned item,
in the store's order. -/
theorem formatResults_query {Emb : Type} (c : Collection Emb)
    (dist : Emb → Emb → Int) (qe : Emb) (k : Nat) :
    formatResults (c.query dist qe k) =
      ((List.insertionSort
          (fun a b => dist qe a.embedding ≤ dist qe b.embedding)
          c.items).take k).map
        (fun it =>
          (⟨it.document, it.metadata, dist qe it.embedding⟩ :
            SearchResult Emb)) := by
  have key : ∀ (top : List (StoredItem Emb)),
      formatResults
        (⟨[top.map (fun it => it.document)],
          [top.map (fun it => it.metadata)],
          [top.map (fun it => dist qe it.embedding)]⟩ : QueryResults Emb) =
        top.map (fun it =>
          (⟨it.document, it.metadata, dist qe it.embedding⟩ :
            SearchResult Emb)) := by
    intro top
    cases top with
    | nil => rfl
    | cons a as =>
      show zipWith3
          (fun d mt di => (⟨d, mt, di⟩ : SearchResult Emb))
          ((a :: as).map (fun it => it.document))
          ((a :: as).map (fun it => it.metadata))
          ((a :: as).map (fun it => dist qe it.embedding)) =
        (a :: as).map (fun it =>
          (⟨it.document, it.metadata, dist qe it.embedding⟩ :
            SearchResult Emb))
      exact zipWith3_map_same _ _ _ _ _
  exact key
    ((List.insertionSort
      (fun a b => dist qe a.embedding ≤ dist qe b.embedding)
      c.items).take k)

/-! ### Claim C4 -/

/-- C4: search never raises past the public boundary — with an unset
collection it returns the empty sequence, and an exception in the
query embedding or in the collection query is caught and yields the
empty sequence. -/
theorem search_never_raises {Emb : Type} (m : VectorDBManager Emb)
    (env : SearchEnv Emb) (query : String) (n_results : Nat) :
    (m.collection = none → search_emails m env query n_results = []) ∧
    (env.encodeErr.isSome → search_emails m env query n_results = []) ∧
    (env.queryErr.isSome → search_emails m env query n_results = []) := by
  refine ⟨?_, ?_, ?_⟩
  · intro h
    simp [search_emails, h]
  · intro h
    obtain ⟨e, he⟩ := Option.isSome_iff_exists.mp h
    cases hc : m.collection with
    | none => simp [search_emails, hc]
    | some c => simp [search_emails, hc, he]
  · intro h
    obtain ⟨e, he⟩ := Option.isSome_iff_exists.mp h
    cases hc : m.collection with
    | none => simp [search_emails, hc]
    | some c =>
      cases henc : env.encodeErr with
      | some e2 => simp [search_emails, hc, henc]
      | none => simp [search_emails, hc, henc, he]

/-- An uninitialized manager: collection and client unset. -/
def uninitManager : VectorDBManager Unit :=
  ⟨VECTOR_DB_PATH, COLLECTION_NAME, EMBEDDING_MODEL, false, none⟩

/-- A search environment in which both fallible calls raise. -/
def failingSearchEnv : SearchEnv Unit :=
  ⟨fun _ => (), fun _ _ => 0, some ("model error"), some ("query error")⟩

/-- A sample query text. -/
def sampleQuery : String := "hello world"

/-- Witness for C4: the uninitialized manager with raising collaborators
still returns the empty sequence. -/
theorem search_never_raises_witness :
    uninitManager.collection = none ∧
    search_emails uninitManager failingSearchEnv sampleQuery 10 = [] :=
  ⟨rfl,
    (search_never_raises uninitManager failingSearchEnv sampleQuery 10).1 rfl⟩

/-! ### Claim C5 -/

/-- C5: a successful search embeds the query, asks the collection for
the `n_results` nearest items by embedding distance, and returns them
as (text, metadata, distance) triples in exactly the store-native
order — which is ascending by distance — with `min n_results count`
results. -/
theorem search_returns_nearest_ascending {Emb : Type}
    (m : VectorDBManager Emb) (env : SearchEnv Emb) (query : String)
    (n_results : Nat) (c : Collection Emb)
    (hc : m.collection = some c) (he : env.encodeErr = none)
    (hq : env.queryErr = none) (_hpos : 0 < n_results) :
    search_emails m env query n_results =
      ((List.insertionSort
          (fun a b => env.dist (env.encQ query) a.embedding ≤
            env.dist (env.encQ query) b.embedding)
          c.items).take n_results).map
        (fun it =>
          (⟨it.document, it.metadata, env.dist (env.encQ query) it.embedding⟩ :
            SearchResult Emb)) ∧
    List.Sorted (fun a b => a ≤ b)
      ((search_emails m env query n_results).map (fun r => r.distance)) ∧
    (search_emails m env query n_results).length =
      min n_results c.items.length := by
  have hmain : search_emails m env query n_results =
      ((List.insertionSort
          (fun a b => env.dist (env.encQ query) a.embedding ≤
            env.dist (env.encQ query) b.embedding)
          c.items).take n_results).map
        (fun it =>
          (⟨it.document, it.metadata, env.dist (env.encQ query) it.embedding⟩ :
            SearchResult Emb)) := by
    simp [search_emails, hc, he, hq, formatResults_query]
  haveI hTot : IsTotal (StoredItem Emb)
      (fun a b => env.dist (env.encQ query) a.embedding ≤
        env.dist (env.encQ query) b.embedding) :=
    ⟨fun a b => le_total _ _⟩
  haveI hTrans : IsTrans (StoredItem Emb)
      (fun a b => env.dist (env.encQ query) a.embedding ≤
        env.dist (env.encQ query) b.embedding) :=
    ⟨fun a b c hab hbc => le_trans hab hbc⟩
  refine ⟨hmain, ?_, ?_⟩
  · rw [hmain, List.map_map]
    have hsorted :=
      (List.sorted_insertionSort
        (fun a b => env.dist (env.encQ query) a.embedding ≤
          env.dist (env.encQ query) b.embedding) c.items).sublist
        (List.take_sublist n_results _)
    exact (List.pairwise_map).mpr hsorted
  · rw [hmain]
    simp [List.length_take, List.length_insertionSort]

/-- A search environment over integer embeddings: the query embeds to
0 and the distance is the squared difference. -/
def intSearchEnv : SearchEnv Int :=
  ⟨fun _ => 0, fun a b => (a - b) * (a - b), none, none⟩

/-- A collection holding two items whose insertion order differs from
their distance order for `intSearchEnv`. -/
def twoItemCollection : Collection Int :=
  ⟨COLLECTION_NAME, descriptionMeta,
    [⟨uuidStream 0, 3, PyObj.ofString ("far"), []⟩,
     ⟨uuidStream 1, 1, PyObj.ofString ("near"), []⟩]⟩

/-- An initialized manager over integer embeddings. -/
def intManager : VectorDBManager Int :=
  ⟨VECTOR_DB_PATH, COLLECTION_NAME, EMBEDDING_MODEL, true,
    some twoItemCollection⟩

/-- Witness for C5 on a two-item collection whose store order reverses
the insertion order. -/
theorem search_returns_nearest_ascending_witness :
    intManager.collection = some twoItemCollection ∧
    0 < 10 ∧
    (search_emails intManager intSearchEnv sampleQuery 10 =
      ((List.insertionSort
          (fun a b => intSearchEnv.dist (intSearchEnv.encQ sampleQuery)
              a.embedding ≤
            intSearchEnv.dist (intSearchEnv.encQ sampleQuery) b.embedding)
          twoItemCollection.items).take 10).map
        (fun it =>
          (⟨it.document, it.metadata,
            intSearchEnv.dist (intSearchEnv.encQ sampleQuery) it.embedding⟩ :
            SearchResult Int)) ∧
    List.Sorted (fun a b => a ≤ b)
      ((search_emails intManager intSearchEnv sampleQuery 10).map
        (fun r => r.distance)) ∧
    (search_emails intManager intSearchEnv sampleQuery 10).length =
      min 10 twoItemCollection.items.length) :=
  ⟨rfl, by decide,
    search_returns_nearest_ascending intManager intSearchEnv sampleQuery 10
      twoItemCollection rfl rfl rfl (by decide)⟩

/-! ### Claim C6 -/

/-- C6: `get_collection_info` returns a mapping with exactly the
collection name, the item count and the storage path when initialized
and the count succeeds; it returns the empty mapping when the
collection is unset or the count raises; the model is total, so no
exception escapes. -/
theorem collection_info_spec {Emb : Type} (m : VectorDBManager Emb)
    (countErr : Option String) :
    (∀ c, m.collection = some c → countErr = none →
      get_collection_info m countErr =
        [ ("name", InfoVal.str m.collection_name)
        , ("count", InfoVal.nat c.items.length)
        , ("path", InfoVal.str m.db_path) ]) ∧
    (m.collection = none → get_collection_info m countErr = []) ∧
    (countErr.isSome → get_collection_info m countErr = []) := by
  refine ⟨?_, ?_, ?_⟩
  · intro c hc he
    simp [get_collection_info, hc, he]
  · intro h
    simp [get_collection_info, h]
  · intro h
    obtain ⟨e, he⟩ := Option.isSome_iff_exists.mp h
    cases hc : m.collection with
    | none => simp [get_collection_info, hc]
    | some c => simp [get_collection_info, hc, he]

/-- Witness for C6 on the two-item integer collection. -/
theorem collection_info_spec_witness :
    intManager.collection = some twoItemCollection ∧
    get_collection_info intManager none =
      [ ("name", InfoVal.str intManager.collection_name)
      , ("count", InfoVal.nat twoItemCollection.items.length)
      , ("path", InfoVal.str intManager.db_path) ] :=
  ⟨rfl,
    (collection_info_spec intManager none).1 twoItemCollection rfl rfl⟩

/-! ### Claim C3 -/

/-- C3 (code bug): `clear_collection` is annotated `-> bool`, but when
`self.collection` is unset the `if self.collection:` guard skips the
only `return True`, no `return` statement executes, and the call
returns Python `None` — not a boolean.  In the model: for every error
injection, the uninitialized manager yields `none` rather than
`some true` or `some false`. -/
theorem clear_collection_unset_returns_none (env : ClearEnv) :
    clear_collection uninitManager env = (none, uninitManager) := rfl

/-! ### Claim C7 -/

/-- C7: `delete_database` performs, in order, the client reset, the
removal of the storage directory, then the re-initialization that
recreates the directory and an empty collection; it returns `true` on
success, and `false` — with the exception caught — when any of the
steps raises. -/
theorem delete_database_spec {Emb : Type} (env : DeleteEnv)
    (m : VectorDBManager Emb) (w : World Emb)
    (hcl : m.client = true) (hdir : w.dirExists = true) :
    (env.resetErr = none → env.rmtreeErr = none →
      env.reinit.makedirsErr = none → env.reinit.clientErr = none →
      env.reinit.createErr = none →
      delete_database env m w =
        (true,
          { m with
              client := true,
              collection := some (emptyCollection Emb m.collection_name) },
          ⟨true, some (emptyCollection Emb m.collection_name)⟩,
          [Effect.clientReset, Effect.rmtreeCall, Effect.makedirsCall,
           Effect.createClient, Effect.getCollectionCall,
           Effect.createCollectionCall])) ∧
    (env.resetErr.isSome → (delete_database env m w).1 = false) ∧
    (env.resetErr = none → env.rmtreeErr.isSome →
      (delete_database env m w).1 = false) ∧
    (env.resetErr = none → env.rmtreeErr = none →
      (env.reinit.makedirsErr.isSome ∨ env.reinit.clientErr.isSome ∨
        env.reinit.createErr.isSome) →
      (delete_database env m w).1 = false) := by
  refine ⟨?_, ?_, ?_, ?_⟩
  · intro h1 h2 h3 h4 h5
    simp [delete_database, deleteRmtreeStep, deleteInitStep, initDb,
      hcl, hdir, h1, h2, h3, h4, h5]
  · intro h
    obtain ⟨e, he⟩ := Option.isSome_iff_exists.mp h
    simp [delete_database, hcl, he]
  · intro h1 h2
    obtain ⟨e, he⟩ := Option.isSome_iff_exists.mp h2
    simp [delete_database, deleteRmtreeStep, hcl, hdir, h1, he]
  · intro h1 h2 h3
    rcases h3 with h3 | h3 | h3 <;>
      obtain ⟨e, he⟩ := Option.isSome_iff_exists.mp h3
    · simp [delete_database, deleteRmtreeStep, deleteInitStep, initDb,
        hcl, hdir, h1, h2, he]
    · cases hmk : env.reinit.makedirsErr with
      | some e2 =>
        simp [delete_database, deleteRmtreeStep, deleteInitStep, initDb,
          hcl, hdir, h1, h2, hmk]
      | none =>
        simp [delete_database, deleteRmtreeStep, deleteInitStep, initDb,
          hcl, hdir, h1, h2, hmk, he]
    · cases hmk : env.reinit.makedirsErr with
      | some e2 =>
        simp [delete_database, deleteRmtreeStep, deleteInitStep, initDb,
          hcl, hdir, h1, h2, hmk]
      | none =>
        cases hcli : env.reinit.clientErr with
        | some e3 =>
          simp [delete_database, deleteRmtreeStep, deleteInitStep, initDb,
            hcl, hdir, h1, h2, hmk, hcli]
        | none =>
          simp [delete_database, deleteRmtreeStep, deleteInitStep, initDb,
            hcl, hdir, h1, h2, hmk, hcli, he]

/-- A delete environment in which every external call succeeds. -/
def okDeleteEnv : DeleteEnv :=
  ⟨none, none, ⟨none, none, none⟩⟩

/-- A world in which the storage directory exists and the store holds
the two-item collection. -/
def intWorld : World Int :=
  ⟨true, some twoItemCollection⟩

/-- Witness for C7 on the initialized integer manager: the full
success path runs reset, removal, re-initialization in order and
returns `true`. -/
theorem delete_database_spec_witness :
    intManager.client = true ∧
    intWorld.dirExists = true ∧
    delete_database okDeleteEnv intManager intWorld =
      (true,
        { intManager with
            client := true,
            collection := some (emptyCollection Int intManager.collection_name) },
        ⟨true, some (emptyCollection Int intManager.collection_name)⟩,
        [Effect.clientReset, Effect.rmtreeCall, Effect.makedirsCall,
         Effect.createClient, Effect.getCollectionCall,
         Effect.createCollectionCall]) :=
  ⟨rfl, rfl,
    (delete_database_spec okDeleteEnv intManager intWorld rfl rfl).1
      rfl rfl rfl rfl rfl⟩

/-! ### Claim C9 -/

/-- C9 counterexample: the resolved configuration holds the embedding
model identifier, the storage path and the collection name, but no
entry of it holds the search result-limit default — the default `10` is
a literal in the `search_emails` signature, internal to the operation,
so the claimed fourth configuration value does not exist. -/
theorem config_has_no_result_limit :
    configEntries.all
      (fun kv => !(kv.2 == ConfigVal.nat searchDefaultNResults)) = true := by
  decide

/-- C9 (amended): the configuration resolved before construction
includes the embedding model identifier, the storage path and the
collection name, and the constructor reads exactly those values; the
result-limit default used by search is the constant `10` written in the
operation's signature, not a configuration value. -/
theorem config_resolved_at_startup :
    configEntries.lookup ("VECTOR_DB_PATH") =
      some (ConfigVal.str VECTOR_DB_PATH) ∧
    configEntries.lookup ("COLLECTION_NAME") =
      some (ConfigVal.str COLLECTION_NAME) ∧
    configEntries.lookup ("EMBEDDING_MODEL") =
      some (ConfigVal.str EMBEDDING_MODEL) ∧
    (mkManagerFields Unit).db_path = VECTOR_DB_PATH ∧
    (mkManagerFields Unit).collection_name = COLLECTION_NAME ∧
    (mkManagerFields Unit).embedding_model = EMBEDDING_MODEL ∧
    searchDefaultNResults = 10 ∧
    (∀ (m : VectorDBManager Unit) (env : SearchEnv Unit) (q : String),
      search_emails_default m env q = search_emails m env q 10) ∧
    configEntries.all
      (fun kv => !(kv.2 == ConfigVal.nat searchDefaultNResults)) = true := by
  refine ⟨rfl, rfl, rfl, rfl, rfl, rfl, rfl, fun m env q => rfl, by decide⟩

end EmailAnalysis
